import Mathlib

/-!
Shallow embedding of the voter ballot-selection workflow
(`src/components/Candidates.tsx`) and the activity-log manager component
(`ActivityLogManager`) of the E-voting-System repository, together with
theorems checking the natural-language specification against the code.

JavaScript objects used as string-keyed dictionaries (`selectedCandidateIds`,
`noneSelected`, `candidatesByPosition`, the confirmation payload) are embedded
as association lists `List (String × α)` in key-insertion order, which is the
enumeration order of `Object.entries` / `Object.keys` for such objects.
`{...prev, [k]: v}` is `setKey`, `delete obj[k]` is `eraseKey`, `obj[k]`
is `lookupKey`.
-/

set_option autoImplicit false

namespace EVoting

universe u

/-- Lookup `obj[k]` on a JS object embedded as an association list:
`none` plays the role of `undefined`. -/
def lookupKey {α : Type u} : List (String × α) → String → Option α
  | [], _ => none
  | (k', v) :: rest, k => if k' = k then some v else lookupKey rest k

/-- Spread-update `{...prev, [k]: v}`: if the key is present its value is
replaced in place, otherwise the pair is appended (JS objects keep the
insertion order of string keys). -/
def setKey {α : Type u} : List (String × α) → String → α → List (String × α)
  | [], k, v => [(k, v)]
  | (k', v') :: rest, k, v =>
      if k' = k then (k, v) :: rest else (k', v') :: setKey rest k v

/-- Key deletion `delete obj[k]` (removes the first occurrence; JS object
keys are unique). -/
def eraseKey {α : Type u} : List (String × α) → String → List (String × α)
  | [], _ => []
  | (k', v') :: rest, k =>
      if k' = k then rest else (k', v') :: eraseKey rest k

/-- Keys of the embedded object, in order. -/
def keysOf {α : Type u} (l : List (String × α)) : List String := l.map Prod.fst

/-!
Data model of `Candidates.tsx`. The TS interface declares `id: string` but the
handlers guard against it being absent at runtime (`candidate.id ||
candidate._id || ""`), so both id fields are embedded as `Option String`
(`none` = the property is `undefined`). A JS string is falsy exactly when it
is empty, which `jsOrStr` reproduces.
-/

/-- Candidate record of `Candidates.tsx` (fields of the TS interface). -/
structure Candidate where
  id : Option String
  _id : Option String
  name : String
  imageUrl : Option String
  image : Option String
  bio : Option String
  manifesto : Option String
  votes : Option Nat
  position : String
  positionId : Option String
deriving Repr, DecidableEq

/-- JS `a || b` for an optional string on the left: an absent (`undefined`)
or empty string is falsy and falls through to `b`. -/
def jsOrStr (a : Option String) (b : String) : String :=
  match a with
  | none => b
  | some s => if s = "" then b else s

/-- Expression `candidate.id || candidate._id || ""` used by `handleVote`. -/
def candidateIdOf (c : Candidate) : String :=
  jsOrStr c.id (jsOrStr c._id "")

/-- Ephemeral per-voter selection state: the `selectedCandidateIds` and
`noneSelected` React state objects. -/
structure SelectionState where
  selectedCandidateIds : List (String × String)
  noneSelected : List (String × Bool)
deriving Repr, DecidableEq

/-- Initial selection state (both objects start as `{}`). -/
def SelectionState.empty : SelectionState := ⟨[], []⟩

/-- Truthiness of `noneSelected[position]`: an absent entry (`undefined`) is
falsy, a stored boolean is its own truth value. -/
def noneFlag (ns : List (String × Bool)) (position : String) : Bool :=
  (lookupKey ns position).getD false

/-- Handler `handleVote(candidate, position)`: stores
`candidate.id || candidate._id || ""` for the position and explicitly sets the
abstention flag of that position to `false`. -/
def handleVote (st : SelectionState) (candidate : Candidate) (position : String) :
    SelectionState :=
  { selectedCandidateIds :=
      setKey st.selectedCandidateIds position (candidateIdOf candidate),
    noneSelected := setKey st.noneSelected position false }

/-- Handler `handleNoneSelected(position)`: sets the abstention flag of the
position to `true` and deletes any stored candidate id for it. -/
def handleNoneSelected (st : SelectionState) (position : String) : SelectionState :=
  { selectedCandidateIds := eraseKey st.selectedCandidateIds position,
    noneSelected := setKey st.noneSelected position true }

/-- User interactions that mutate the selection state. -/
inductive VoteEvent where
  | vote (candidate : Candidate) (position : String)
  | noneSel (position : String)
deriving Repr, DecidableEq

/-- Apply one interaction. -/
def applyEvent (st : SelectionState) : VoteEvent → SelectionState
  | .vote c p => handleVote st c p
  | .noneSel p => handleNoneSelected st p

/-- Run a sequence of interactions from the empty selection state. -/
def runEvents (events : List VoteEvent) : SelectionState :=
  events.foldl applyEvent SelectionState.empty

/-- Mutual-exclusivity check: no position carries both a stored candidate id
and a `true` abstention flag. -/
def mutualExclusion (st : SelectionState) : Bool :=
  st.selectedCandidateIds.all (fun pc => noneFlag st.noneSelected pc.1 == false)

/-- Completeness test of one position used by `handleConfirmVote`:
`selectedCandidateIds[position] !== undefined || noneSelected[position]`. -/
def positionComplete (sel : List (String × String)) (ns : List (String × Bool))
    (position : String) : Bool :=
  (lookupKey sel position).isSome || noneFlag ns position

/-- Derived state `unselectedPositions` kept in sync by the `useEffect` at
lines 150-156: positions with
`selectedCandidateIds[position] === undefined && !noneSelected[position]`. -/
def unselectedPositionsOf (positions : List String) (sel : List (String × String))
    (ns : List (String × Bool)) : List String :=
  positions.filter (fun p => (lookupKey sel p).isNone && !noneFlag ns p)

/-- Payload reconstruction of `handleConfirmVote`: reduce over
`Object.entries(selectedCandidateIds)`, looking each stored id up with
`candidatesByPosition[position]?.find((c) => c.id === candidateId)` and
silently skipping entries whose id does not resolve.  JS strict equality
`c.id === candidateId` compares a possibly-undefined property with a string,
so it holds iff `c.id` is present and equal. -/
def validSelectedCandidates (ballot : List (String × List Candidate)) :
    List (String × String) → List (String × Candidate)
  | [] => []
  | (position, candidateId) :: rest =>
      match ((lookupKey ballot position).getD []).find?
          (fun c => c.id == some candidateId) with
      | some c => (position, c) :: validSelectedCandidates ballot rest
      | none => validSelectedCandidates ballot rest

/-- Outcome of pressing the confirm button: either a navigation to
`/confirm-vote` carrying the payload, or a rejection showing the error
message that lists the incomplete positions. -/
inductive ConfirmOutcome where
  | navigate (selectedCandidates : List (String × Candidate))
      (noneSelected : List (String × Bool))
  | reject (unselectedPositions : List String)
deriving Repr, DecidableEq

/-- Handler `handleConfirmVote`: navigates iff
`positions.every((p) => selectedCandidateIds[p] !== undefined || noneSelected[p])`;
otherwise it sets the error message built from `unselectedPositions`
(the UI joins the listed names with a comma). -/
def handleConfirmVote (positions : List String)
    (ballot : List (String × List Candidate)) (st : SelectionState) : ConfirmOutcome :=
  if positions.all (positionComplete st.selectedCandidateIds st.noneSelected) then
    .navigate (validSelectedCandidates ballot st.selectedCandidateIds) st.noneSelected
  else
    .reject (unselectedPositionsOf positions st.selectedCandidateIds st.noneSelected)

/-- Full component state of `Candidates.tsx` touched by `handleRefresh`. -/
structure CandState where
  candidatesByPosition : List (String × List Candidate)
  positions : List String
  selection : SelectionState
  error : String
  loading : Bool
deriving Repr, DecidableEq

/-- Handler `handleRefresh` on a resolved (successful) re-fetch carrying
`data`: when the object is empty it reports "No candidates available" and
clears the ballot; otherwise it replaces `candidatesByPosition` and
`positions` and clears the error.  It never touches `selectedCandidateIds`
or `noneSelected`. -/
def handleRefreshSuccess (st : CandState)
    (data : List (String × List Candidate)) : CandState :=
  if data.isEmpty then
    { st with
        error := "No candidates available for your voter group.",
        candidatesByPosition := [],
        positions := [],
        loading := false }
  else
    { st with
        candidatesByPosition := data,
        positions := keysOf data,
        error := "",
        loading := false }

/-- Invariant carried by every reachable selection state: unique keys in the
`selectedCandidateIds` object and mutual exclusivity. -/
def SelInvariant (st : SelectionState) : Prop :=
  (keysOf st.selectedCandidateIds).Nodup ∧ mutualExclusion st = true

/-- Concrete candidate used to evaluate the theorems on small inputs. -/
def candA : Candidate :=
  { id := some "c1", _id := none, name := "Alice", imageUrl := none,
    image := none, bio := none, manifesto := none, votes := none,
    position := "President", positionId := none }

/-- Concrete candidate whose `id` and `_id` properties are both absent. -/
def candNoId : Candidate :=
  { id := none, _id := none, name := "Ghost", imageUrl := none,
    image := none, bio := none, manifesto := none, votes := none,
    position := "President", positionId := none }

/-- Concrete component state holding one selection and one abstention,
used to evaluate `handleRefreshSuccess`. -/
def refreshDemoState : CandState :=
  { candidatesByPosition := [("President", [candA])],
    positions := ["President", "Secretary"],
    selection := ⟨[("President", "c1")], [("Secretary", true)]⟩,
    error := "",
    loading := false }

/-- Concrete non-empty re-fetched ballot for `handleRefreshSuccess`. -/
def refreshDemoData : List (String × List Candidate) :=
  [("President", [candA]), ("Secretary", [])]

/-!
Activity-log manager (`ActivityLogManager`). Timestamps are ISO strings in
the source, always compared, sorted and bounded through `new Date(...)`; the
embedding keeps the parsed value: `timestamp` is the epoch-milliseconds
number `new Date(log.timestamp).getTime()`. The `fromDate`/`toDate` filter
inputs are date form fields (`""` = unset, otherwise one day), embedded as
`Option Nat` holding the epoch milliseconds of the parsed start of that day;
`setHours(23, 59, 59)` on that midnight value adds 86399000 ms.
-/

/-- Lower-casing `String.prototype.toLowerCase`, embedded at the character
level with `Char.toLower`. -/
def lowerStr (s : String) : String := String.mk (s.data.map Char.toLower)

/-- Character-list test: the first list starts the second one. -/
def leadsWith : List Char → List Char → Bool
  | [], _ => true
  | _ :: _, [] => false
  | a :: as, b :: bs => a == b && leadsWith as bs

/-- Character-list test: the first list occurs contiguously in the second. -/
def containsChars (needle : List Char) : List Char → Bool
  | [] => leadsWith needle []
  | c :: cs => leadsWith needle (c :: cs) || containsChars needle cs

/-- JS `hay.includes(needle)` on strings. -/
def strIncludes (hay needle : String) : Bool := containsChars needle.data hay.data

/-- Role object nested in a log's `user` (`role?: { name: string }`). -/
structure LogRole where
  name : String
deriving Repr, DecidableEq

/-- Denormalized acting user of an `ActivityLog` entry. -/
structure LogUser where
  _id : String
  username : String
  fullName : String
  role : Option LogRole
deriving Repr, DecidableEq

/-- ActivityLog entry of `ActivityLogManager` (fields of the TS interface;
`timestamp` holds the parsed epoch milliseconds). -/
structure ActivityLog where
  _id : String
  userId : String
  user : Option LogUser
  action : String
  entity : String
  entityId : String
  details : String
  ipAddress : String
  timestamp : Nat
deriving Repr, DecidableEq

/-- Structured filter state of `ActivityLogManager` (`""`/`none` = unset). -/
structure LogFilters where
  user : String
  action : String
  entity : String
  fromDate : Option Nat
  toDate : Option Nat
deriving Repr, DecidableEq

/-- Free-text search predicate of the filtering effect, taking the already
lower-cased term: `(log.user?.username && log.user.username.toLowerCase()
.includes(term)) || (log.user?.fullName && ...) || log.action... ||
log.entity... || log.details...` (an absent or empty property is falsy). -/
def matchesSearch (term : String) (log : ActivityLog) : Bool :=
  (match log.user with
   | some u =>
       (u.username != "" && strIncludes (lowerStr u.username) term)
         || (u.fullName != "" && strIncludes (lowerStr u.fullName) term)
   | none => false)
  || strIncludes (lowerStr log.action) term
  || strIncludes (lowerStr log.entity) term
  || strIncludes (lowerStr log.details) term

/-- User filter predicate:
`log.user?.username === filters.user || log.user?.fullName === filters.user`. -/
def matchesUserFilter (u : String) (log : ActivityLog) : Bool :=
  match log.user with
  | some lu => lu.username == u || lu.fullName == u
  | none => false

/-- Milliseconds added to the parsed midnight of the `toDate` day by
`toDate.setHours(23, 59, 59)`: 23 h 59 min 59 s. -/
def endOfDayMs (d : Nat) : Nat := d + 86399000

/-- Stable insertion into a list sorted by timestamp descending. -/
def insertDescByTime (x : ActivityLog) : List ActivityLog → List ActivityLog
  | [] => [x]
  | y :: ys =>
      if y.timestamp ≤ x.timestamp then x :: y :: ys else y :: insertDescByTime x ys

/-- Sort `(a, b) => new Date(b.timestamp).getTime() - new
Date(a.timestamp).getTime()`: newest first; `Array.prototype.sort` is stable,
matched here by stable insertion sort. -/
def sortByTimeDesc (l : List ActivityLog) : List ActivityLog :=
  l.foldr insertDescByTime []

/-- Filtering `useEffect` of `ActivityLogManager` (lines 109-164): an empty
`logs` returns early and keeps the previous `filteredLogs`; otherwise the
search term, the structured filters and the date bounds are applied in
program order to a copy of the full list, which is then sorted newest
first and stored as the displayed list. -/
def updateFilteredLogs (prevFiltered : List ActivityLog) (logs : List ActivityLog)
    (searchTerm : String) (filters : LogFilters) : List ActivityLog :=
  if logs.isEmpty then prevFiltered
  else
    let f1 := if searchTerm != "" then
        logs.filter (matchesSearch (lowerStr searchTerm)) else logs
    let f2 := if filters.user != "" then
        f1.filter (matchesUserFilter filters.user) else f1
    let f3 := if filters.action != "" then
        f2.filter (fun log => log.action == filters.action) else f2
    let f4 := if filters.entity != "" then
        f3.filter (fun log => log.entity == filters.entity) else f3
    let f5 := match filters.fromDate with
      | some d => f4.filter (fun log => d ≤ log.timestamp)
      | none => f4
    let f6 := match filters.toDate with
      | some d => f5.filter (fun log => log.timestamp ≤ endOfDayMs d)
      | none => f5
    sortByTimeDesc f6

/-- First pipeline stage named by the spec: the case-insensitive free-text
search. -/
def searchStage (searchTerm : String) (l : List ActivityLog) : List ActivityLog :=
  if searchTerm != "" then l.filter (matchesSearch (lowerStr searchTerm)) else l

/-- Second pipeline stage named by the spec: exact-match user, action and
entity filters, then the day-granularity date range. -/
def structuredStage (filters : LogFilters) (l : List ActivityLog) :
    List ActivityLog :=
  let g1 := if filters.user != "" then
      l.filter (matchesUserFilter filters.user) else l
  let g2 := if filters.action != "" then
      g1.filter (fun log => log.action == filters.action) else g1
  let g3 := if filters.entity != "" then
      g2.filter (fun log => log.entity == filters.entity) else g2
  let g4 := match filters.fromDate with
    | some d => g3.filter (fun log => d ≤ log.timestamp)
    | none => g3
  match filters.toDate with
  | some d => g4.filter (fun log => log.timestamp ≤ endOfDayMs d)
  | none => g4

/-- Filtering pipeline in the fixed order stated by the spec: free-text
search, then structured filters, then sort by timestamp descending, always
starting from the full unfiltered list. -/
def logPipeline (searchTerm : String) (filters : LogFilters)
    (l : List ActivityLog) : List ActivityLog :=
  sortByTimeDesc (structuredStage filters (searchStage searchTerm l))

/-- JS `log.details.replace(/"/g, '""')`: every double-quote character is
doubled. -/
def escapeQuotes (s : String) : String :=
  String.mk (s.data.foldr
    (fun c acc => if c = '"' then '"' :: '"' :: acc else c :: acc) [])

/-- Expression `log.user ? log.user.fullName || log.user.username :
"Unknown"` of `handleExport`. -/
def displayUser (log : ActivityLog) : String :=
  match log.user with
  | some u => if u.fullName = "" then u.username else u.fullName
  | none => "Unknown"

/-- Expression `log.user?.role ? log.user.role.name : ""` of
`handleExport`. -/
def displayRole (log : ActivityLog) : String :=
  match log.user with
  | some u =>
      match u.role with
      | some r => r.name
      | none => ""
  | none => ""

/-- CSV header row written first by `handleExport`. -/
def csvHeader : String := "Time,User,Role,Action,Entity,Details,IP Address\n"

/-- One CSV data row of `handleExport`: every field wrapped in double quotes,
fields separated by commas, the row terminated by a newline; only the
`details` field is quote-escaped, and `formatTimestamp` (locale-dependent
`toLocaleString`) is abstracted as the argument `fmt`. -/
def csvRow (fmt : Nat → String) (log : ActivityLog) : String :=
  "\"" ++ fmt log.timestamp ++ "\",\"" ++ displayUser log ++ "\",\""
    ++ displayRole log ++ "\",\"" ++ log.action ++ "\",\"" ++ log.entity
    ++ "\",\"" ++ escapeQuotes log.details ++ "\",\"" ++ log.ipAddress ++ "\"\n"

/-- Concatenation of the CSV rows of a log list, in order. -/
def csvBody (fmt : Nat → String) : List ActivityLog → String
  | [] => ""
  | log :: rest => csvRow fmt log ++ csvBody fmt rest

/-- Handler `handleExport`: the CSV content accumulated with `csvContent +=`
over the currently filtered list, starting from the header. It reads only
in-memory state (a pure projection of `filteredLogs`), no request is made. -/
def handleExport (fmt : Nat → String) (filteredLogs : List ActivityLog) : String :=
  filteredLogs.foldl (fun acc log => acc ++ csvRow fmt log) csvHeader

/-- Number of newline characters of a string. -/
def countNewlines (s : String) : Nat := s.data.count '\n'

/-- Newline-occurrence test on a string. -/
def hasNewline (s : String) : Bool := s.data.contains '\n'

/-- Number of double-quote characters of a string. -/
def countQuotes (s : String) : Nat := s.data.count '"'

/-- Notification kind of `ActivityLogManager` (`"success" | "error"`). -/
inductive NotifType where
  | success
  | error
deriving Repr, DecidableEq

/-- Component state of `ActivityLogManager` touched by `handleClearLogs`. -/
structure LogMgrState where
  logs : List ActivityLog
  filteredLogs : List ActivityLog
  notification : Option (NotifType × String)
  isLoading : Bool
deriving Repr, DecidableEq

/-- Delay of the `setTimeout(() => setNotification(null), 3000)` scheduled in
the `finally` block of `handleClearLogs`. -/
def notificationTimeoutMs : Nat := 3000

/-- Result of one `handleClearLogs` run: the state left behind, whether the
DELETE endpoint was called, and the delay of the scheduled notification
clear (`none` when no timeout was scheduled). -/
structure ClearOutcome where
  state : LogMgrState
  deleteCalled : Bool
  scheduledClearMs : Option Nat
deriving Repr, DecidableEq

/-- Handler `handleClearLogs` (lines 210-261): returns immediately without
any request when the delete permission is missing or the `window.confirm`
dialog is declined; on a resolved OK response it empties `logs` and
`filteredLogs` and shows a success notification; on a non-OK response
(status used in the thrown message) or a rejected fetch it changes neither
list and shows an error notification; in both completed cases the `finally`
block stops the spinner and schedules the notification clear. -/
def handleClearLogs (canDeleteLogs confirmed requestOk : Bool) (status : Nat)
    (st : LogMgrState) : ClearOutcome :=
  if !canDeleteLogs then ⟨st, false, none⟩
  else if !confirmed then ⟨st, false, none⟩
  else if requestOk then
    ⟨{ st with
        logs := [],
        filteredLogs := [],
        notification := some (NotifType.success,
          "All activity logs have been cleared successfully"),
        isLoading := false }, true, some notificationTimeoutMs⟩
  else
    ⟨{ st with
        notification := some (NotifType.error,
          "Failed to clear logs: " ++ toString status),
        isLoading := false }, true, some notificationTimeoutMs⟩

/-- Callback `() => setNotification(null)` run when the scheduled timeout
fires. -/
def clearNotification (st : LogMgrState) : LogMgrState :=
  { st with notification := none }

/-- Render guard of the Clear All Logs button:
`{canDeleteLogs && (<button onClick={handleClearLogs} ...>)}`. -/
def clearButtonRendered (canDeleteLogs : Bool) : Bool := canDeleteLogs

/-- Concrete acting user for the demo log entries. -/
def demoUser1 : LogUser :=
  { _id := "u1", username := "alice", fullName := "Alice A",
    role := some { name := "admin" } }

/-- Concrete log entry used to evaluate the theorems on small inputs. -/
def demoLog1 : ActivityLog :=
  { _id := "l1", userId := "u1",
    user := some demoUser1,
    action := "login", entity := "user", entityId := "u1",
    details := "signed in as \"alice\"", ipAddress := "10.0.0.1",
    timestamp := 1700000000000 }

/-- Second concrete log entry, newer than `demoLog1`. -/
def demoLog2 : ActivityLog :=
  { _id := "l2", userId := "u2",
    user := none,
    action := "delete", entity := "voter", entityId := "v7",
    details := "removed voter \"v7\"", ipAddress := "10.0.0.2",
    timestamp := 1700000005000 }

/-- Concrete structured filter state with every filter unset. -/
def demoFilters : LogFilters :=
  { user := "", action := "", entity := "", fromDate := none, toDate := none }

/-- Concrete stand-in for `formatTimestamp` in the CSV witness. -/
def demoFmt : Nat → String := fun _ => "2023-11-14 22:13"

theorem lookupKey_eq_none {α : Type u} (l : List (String × α)) (k : String) :
    lookupKey l k = none ↔ k ∉ keysOf l := by
  induction l with
  | nil => simp [lookupKey, keysOf]
  | cons p rest ih =>
      obtain ⟨k', v'⟩ := p
      by_cases h : k' = k
      · simp [lookupKey, h, keysOf]
      · have h2 : ¬k = k' := fun hh => h hh.symm
        simp [lookupKey, h, keysOf, ih, h2]

theorem lookupKey_setKey_self {α : Type u} (l : List (String × α)) (k : String) (v : α) :
    lookupKey (setKey l k v) k = some v := by
  induction l with
  | nil => simp [setKey, lookupKey]
  | cons p rest ih =>
      obtain ⟨k', v'⟩ := p
      by_cases h : k' = k
      · simp [setKey, h, lookupKey]
      · simp [setKey, h, lookupKey, ih]

theorem lookupKey_setKey_ne {α : Type u} (l : List (String × α)) (k q : String) (v : α)
    (h : q ≠ k) : lookupKey (setKey l k v) q = lookupKey l q := by
  have h2 : ¬k = q := fun hh => h hh.symm
  induction l with
  | nil => simp [setKey, lookupKey, h2]
  | cons p rest ih =>
      obtain ⟨k', v'⟩ := p
      by_cases hk : k' = k
      · subst hk
        simp [setKey, lookupKey, h2]
      · by_cases hq : k' = q
        · subst hq
          simp [setKey, hk, lookupKey]
        · simp [setKey, hk, lookupKey, hq, ih]

theorem mem_keysOf_setKey {α : Type u} (l : List (String × α)) (k q : String) (v : α) :
    q ∈ keysOf (setKey l k v) ↔ q ∈ keysOf l ∨ q = k := by
  induction l with
  | nil => simp [setKey, keysOf]
  | cons p rest ih =>
      obtain ⟨k', v'⟩ := p
      by_cases h : k' = k
      · subst h
        simp [setKey, keysOf]
        tauto
      · simp [setKey, h, keysOf] at *
        rw [ih]
        tauto

theorem mem_keysOf_eraseKey {α : Type u} (l : List (String × α)) (k q : String) :
    q ∈ keysOf (eraseKey l k) → q ∈ keysOf l := by
  induction l with
  | nil => simp [eraseKey]
  | cons p rest ih =>
      obtain ⟨k', v'⟩ := p
      by_cases h : k' = k
      · simp [eraseKey, h, keysOf]
        tauto
      · simp [eraseKey, h, keysOf] at *
        tauto

theorem nodup_keys_setKey {α : Type u} (l : List (String × α)) (k : String) (v : α)
    (hnd : (keysOf l).Nodup) : (keysOf (setKey l k v)).Nodup := by
  induction l with
  | nil => simp [setKey, keysOf]
  | cons p rest ih =>
      obtain ⟨k', v'⟩ := p
      simp only [keysOf, List.map_cons, List.nodup_cons] at hnd
      by_cases h : k' = k
      · subst h
        simpa [setKey, keysOf] using hnd
      · rw [show keysOf (setKey ((k', v') :: rest) k v)
              = k' :: keysOf (setKey rest k v) by simp [setKey, h, keysOf]]
        refine List.nodup_cons.mpr ⟨?_, ih hnd.2⟩
        intro hm
        rcases (mem_keysOf_setKey rest k k' v).mp hm with hm' | hm'
        · exact hnd.1 hm'
        · exact h hm'

theorem nodup_keys_eraseKey {α : Type u} (l : List (String × α)) (k : String)
    (hnd : (keysOf l).Nodup) : (keysOf (eraseKey l k)).Nodup := by
  induction l with
  | nil => simp [eraseKey, keysOf]
  | cons p rest ih =>
      obtain ⟨k', v'⟩ := p
      simp only [keysOf, List.map_cons, List.nodup_cons] at hnd
      by_cases h : k' = k
      · simpa [eraseKey, h, keysOf] using hnd.2
      · simp only [eraseKey, h, if_false, keysOf, List.map_cons, List.nodup_cons]
        exact ⟨fun hm => hnd.1 (mem_keysOf_eraseKey rest k k' hm), ih hnd.2⟩

theorem lookupKey_eraseKey_self {α : Type u} (l : List (String × α)) (k : String)
    (hnd : (keysOf l).Nodup) : lookupKey (eraseKey l k) k = none := by
  induction l with
  | nil => simp [eraseKey, lookupKey]
  | cons p rest ih =>
      obtain ⟨k', v'⟩ := p
      simp only [keysOf, List.map_cons, List.nodup_cons] at hnd
      by_cases h : k' = k
      · subst h
        simp only [eraseKey, if_pos rfl]
        exact (lookupKey_eq_none rest k').mpr hnd.1
      · simp only [eraseKey, if_neg h, lookupKey, if_neg h]
        exact ih hnd.2

theorem lookupKey_eraseKey_ne {α : Type u} (l : List (String × α)) (k q : String)
    (h : q ≠ k) : lookupKey (eraseKey l k) q = lookupKey l q := by
  have h2 : ¬k = q := fun hh => h hh.symm
  induction l with
  | nil => simp [eraseKey]
  | cons p rest ih =>
      obtain ⟨k', v'⟩ := p
      by_cases hk : k' = k
      · subst hk
        simp [eraseKey, lookupKey, h2]
      · by_cases hq : k' = q
        · subst hq
          simp [eraseKey, hk, lookupKey]
        · simp [eraseKey, hk, lookupKey, hq, ih]

theorem mem_setKey_entries {α : Type u} (l : List (String × α)) (k : String) (v : α)
    (x : String × α) (hx : x ∈ setKey l k v) : x ∈ l ∨ x = (k, v) := by
  induction l with
  | nil =>
      simp only [setKey, List.mem_singleton] at hx
      exact Or.inr hx
  | cons p rest ih =>
      obtain ⟨k', v'⟩ := p
      by_cases h : k' = k
      · simp only [setKey, if_pos h] at hx
        rcases List.mem_cons.mp hx with h1 | h1
        · right; exact h1
        · left; exact List.mem_cons_of_mem _ h1
      · simp only [setKey, if_neg h] at hx
        rcases List.mem_cons.mp hx with h1 | h1
        · left; exact h1 ▸ List.mem_cons_self _ _
        · rcases ih h1 with h2 | h2
          · left; exact List.mem_cons_of_mem _ h2
          · right; exact h2

theorem mem_eraseKey_entries {α : Type u} (l : List (String × α)) (k : String)
    (x : String × α) (hx : x ∈ eraseKey l k) : x ∈ l := by
  induction l with
  | nil => simp [eraseKey] at hx
  | cons p rest ih =>
      obtain ⟨k', v'⟩ := p
      by_cases h : k' = k
      · simp only [eraseKey, if_pos h] at hx
        exact List.mem_cons_of_mem _ hx
      · simp only [eraseKey, if_neg h] at hx
        rcases List.mem_cons.mp hx with h1 | h1
        · exact h1 ▸ List.mem_cons_self _ _
        · exact List.mem_cons_of_mem _ (ih h1)

theorem not_mem_keysOf_eraseKey_self {α : Type u} (l : List (String × α)) (k : String)
    (hnd : (keysOf l).Nodup) : k ∉ keysOf (eraseKey l k) := by
  intro hm
  have := (lookupKey_eq_none (eraseKey l k) k).mp (lookupKey_eraseKey_self l k hnd)
  exact this hm

theorem selInvariant_empty : SelInvariant SelectionState.empty := by
  constructor
  · simp [SelectionState.empty, keysOf]
  · simp [SelectionState.empty, mutualExclusion]

theorem selInvariant_applyEvent (st : SelectionState) (e : VoteEvent)
    (h : SelInvariant st) : SelInvariant (applyEvent st e) := by
  obtain ⟨hnd, hmx⟩ := h
  rw [mutualExclusion, List.all_eq_true] at hmx
  cases e with
  | vote c p =>
      refine ⟨nodup_keys_setKey _ _ _ hnd, ?_⟩
      rw [mutualExclusion, List.all_eq_true]
      rintro ⟨q, v⟩ hq
      simp only [beq_iff_eq]
      rcases mem_setKey_entries _ _ _ _ hq with hmem | hmem
      · by_cases hqp : q = p
        · subst hqp
          simp [applyEvent, handleVote, noneFlag, lookupKey_setKey_self]
        · have := hmx ⟨q, v⟩ hmem
          simp only [beq_iff_eq] at this
          simpa [applyEvent, handleVote, noneFlag, lookupKey_setKey_ne _ _ _ _ hqp]
            using this
      · have hqp : q = p := congrArg Prod.fst hmem
        subst hqp
        simp [applyEvent, handleVote, noneFlag, lookupKey_setKey_self]
  | noneSel p =>
      refine ⟨nodup_keys_eraseKey _ _ hnd, ?_⟩
      rw [mutualExclusion, List.all_eq_true]
      rintro ⟨q, v⟩ hq
      simp only [beq_iff_eq]
      have hmem : (q, v) ∈ st.selectedCandidateIds := mem_eraseKey_entries _ _ _ hq
      have hqp : q ≠ p := by
        intro hqp
        subst hqp
        exact not_mem_keysOf_eraseKey_self _ _ hnd
          (List.mem_map_of_mem Prod.fst hq)
      have := hmx ⟨q, v⟩ hmem
      simp only [beq_iff_eq] at this
      simpa [applyEvent, handleNoneSelected, noneFlag,
        lookupKey_setKey_ne _ _ _ _ hqp] using this

theorem selInvariant_foldl (events : List VoteEvent) (st : SelectionState)
    (h : SelInvariant st) : SelInvariant (events.foldl applyEvent st) := by
  induction events generalizing st with
  | nil => exact h
  | cons e es ih => exact ih _ (selInvariant_applyEvent st e h)

theorem selInvariant_runEvents (events : List VoteEvent) :
    SelInvariant (runEvents events) :=
  selInvariant_foldl events SelectionState.empty selInvariant_empty

theorem keysOf_validSelectedCandidates_subset
    (ballot : List (String × List Candidate)) (sel : List (String × String))
    (q : String) (hq : q ∈ keysOf (validSelectedCandidates ballot sel)) :
    q ∈ keysOf sel := by
  induction sel with
  | nil => simp [validSelectedCandidates, keysOf] at hq
  | cons p rest ih =>
      obtain ⟨pos, cid⟩ := p
      simp only [validSelectedCandidates] at hq
      cases hfind : ((lookupKey ballot pos).getD []).find?
          (fun c => c.id == some cid) with
      | some c =>
          rw [hfind] at hq
          simp only [keysOf, List.map_cons, List.mem_cons] at hq ⊢
          rcases hq with hq | hq
          · left; exact hq
          · right; exact ih hq
      | none =>
          rw [hfind] at hq
          simp only [keysOf, List.map_cons, List.mem_cons]
          right; exact ih hq

theorem lookupKey_validSelectedCandidates
    (ballot : List (String × List Candidate)) (sel : List (String × String))
    (p : String) (hnd : (keysOf sel).Nodup) :
    lookupKey (validSelectedCandidates ballot sel) p =
      match lookupKey sel p with
      | some cid => ((lookupKey ballot p).getD []).find? (fun c => c.id == some cid)
      | none => none := by
  induction sel with
  | nil => simp [validSelectedCandidates, lookupKey]
  | cons hd rest ih =>
      obtain ⟨pos, cid⟩ := hd
      simp only [keysOf, List.map_cons, List.nodup_cons] at hnd
      by_cases hp : pos = p
      · subst hp
        have hrest : lookupKey rest pos = none := (lookupKey_eq_none rest pos).mpr hnd.1
        cases hfind : ((lookupKey ballot pos).getD []).find?
            (fun c => c.id == some cid) with
        | some c => simp [validSelectedCandidates, hfind, lookupKey]
        | none =>
            have hnotin : pos ∉ keysOf (validSelectedCandidates ballot rest) := by
              intro hm
              exact ((lookupKey_eq_none rest pos).mp hrest)
                (keysOf_validSelectedCandidates_subset ballot rest pos hm)
            simp [validSelectedCandidates, hfind, lookupKey]
            exact (lookupKey_eq_none _ pos).mpr hnotin
      · simp only [validSelectedCandidates, lookupKey, if_neg hp]
        cases hfind : ((lookupKey ballot pos).getD []).find?
            (fun c => c.id == some cid) with
        | some c => simp [lookupKey, hp, ih hnd.2]
        | none => simp [ih hnd.2]

/-- C1: pressing confirm (`handleConfirmVote`) navigates to the confirmation
stage iff every position in the positions list has either a selected candidate
id or an explicit (`true`) abstention flag; otherwise navigation does not
happen and the rejection lists exactly the incomplete positions by name — the
positions with neither a selection nor an abstention. -/
theorem confirm_navigates_iff_complete (positions : List String)
    (ballot : List (String × List Candidate)) (st : SelectionState) :
    (handleConfirmVote positions ballot st =
        ConfirmOutcome.navigate
          (validSelectedCandidates ballot st.selectedCandidateIds) st.noneSelected
      ↔ ∀ p ∈ positions,
          (lookupKey st.selectedCandidateIds p).isSome = true
            ∨ noneFlag st.noneSelected p = true)
    ∧ ((¬ ∀ p ∈ positions,
          (lookupKey st.selectedCandidateIds p).isSome = true
            ∨ noneFlag st.noneSelected p = true) →
        handleConfirmVote positions ballot st =
          ConfirmOutcome.reject (positions.filter (fun p =>
            (lookupKey st.selectedCandidateIds p).isNone
              && !noneFlag st.noneSelected p))) := by
  have hiff :
      positions.all (positionComplete st.selectedCandidateIds st.noneSelected) = true
        ↔ ∀ p ∈ positions,
            (lookupKey st.selectedCandidateIds p).isSome = true
              ∨ noneFlag st.noneSelected p = true := by
    rw [List.all_eq_true]
    constructor
    · intro h p hp
      have hh := h p hp
      rw [positionComplete, Bool.or_eq_true] at hh
      exact hh
    · intro h p hp
      rw [positionComplete, Bool.or_eq_true]
      exact h p hp
  constructor
  · constructor
    · intro hnav
      by_cases hall :
          positions.all (positionComplete st.selectedCandidateIds st.noneSelected) = true
      · exact hiff.mp hall
      · rw [handleConfirmVote, if_neg hall] at hnav
        exact absurd hnav (by simp)
    · intro h
      rw [handleConfirmVote, if_pos (hiff.mpr h)]
  · intro h
    have hall :
        ¬ positions.all (positionComplete st.selectedCandidateIds st.noneSelected) = true :=
      fun hc => h (hiff.mp hc)
    rw [handleConfirmVote, if_neg hall]
    rfl

/-- Witness for C1 at a concrete incomplete ballot: with two positions and
only "President" selected, confirm rejects and reports exactly
["Secretary"]. -/
theorem confirm_navigates_iff_complete_witness :
    handleConfirmVote ["President", "Secretary"] [("President", [candA])]
        ⟨[("President", "c1")], []⟩ =
      ConfirmOutcome.reject ["Secretary"] := by
  have h := confirm_navigates_iff_complete ["President", "Secretary"]
    [("President", [candA])] ⟨[("President", "c1")], []⟩
  have h2 := h.2 (by decide)
  rw [h2]
  decide

/-- C2: along every interaction sequence from the empty selection state, no
position ever has both a stored candidate id and a `true` abstention flag;
moreover `handleVote` on a position forces that position's abstention flag to
`false`, and `handleNoneSelected` on a position deletes its stored candidate
id. -/
theorem selection_mutual_exclusion (events : List VoteEvent)
    (c : Candidate) (p : String) :
    mutualExclusion (runEvents events) = true
    ∧ noneFlag (handleVote (runEvents events) c p).noneSelected p = false
    ∧ lookupKey (handleNoneSelected (runEvents events) p).selectedCandidateIds p
        = none := by
  obtain ⟨hnd, hmx⟩ := selInvariant_runEvents events
  refine ⟨hmx, ?_, ?_⟩
  · simp [handleVote, noneFlag, lookupKey_setKey_self]
  · simpa [handleNoneSelected] using
      lookupKey_eraseKey_self (runEvents events).selectedCandidateIds p hnd

/-- Counterexample to C3 as stated: after a successful manual re-fetch
(`handleRefresh` resolved with a non-empty ballot) the selected-candidate map
and the abstention map are NOT reset — at this concrete state they are both
still non-empty. -/
theorem refresh_reset_counterexample :
    (handleRefreshSuccess refreshDemoState refreshDemoData).selection.selectedCandidateIds
        ≠ []
    ∧ (handleRefreshSuccess refreshDemoState refreshDemoData).selection.noneSelected
        ≠ [] := by
  decide

/-- C3 (amended): manual refresh replaces the ballot (`candidatesByPosition`
and `positions`) with the newly fetched data — or clears it with an error
message when the fetch resolves with an empty object — and leaves the
selected-candidate map and the abstention map unchanged (prior selections are
preserved, not reset). -/
theorem refresh_preserves_selection (st : CandState)
    (data : List (String × List Candidate)) :
    (handleRefreshSuccess st data).selection = st.selection
    ∧ (data ≠ [] →
        (handleRefreshSuccess st data).candidatesByPosition = data
        ∧ (handleRefreshSuccess st data).positions = keysOf data
        ∧ (handleRefreshSuccess st data).error = "")
    ∧ (data = [] →
        (handleRefreshSuccess st data).candidatesByPosition = []
        ∧ (handleRefreshSuccess st data).positions = []
        ∧ (handleRefreshSuccess st data).error =
            "No candidates available for your voter group.") := by
  by_cases h : data = []
  · subst h
    refine ⟨rfl, fun hk => absurd rfl hk, fun _ => ⟨rfl, rfl, rfl⟩⟩
  · have hne : data.isEmpty = false := by
      cases data with
      | nil => exact absurd rfl h
      | cons x xs => rfl
    refine ⟨?_, fun _ => ⟨?_, ?_, ?_⟩, fun hk => absurd hk h⟩ <;>
      simp [handleRefreshSuccess, hne]

/-- Witness for C3 (amended) at the concrete refresh state: the new ballot is
installed while the selection maps survive the refresh. -/
theorem refresh_preserves_selection_witness :
    (handleRefreshSuccess refreshDemoState refreshDemoData).candidatesByPosition
        = refreshDemoData
    ∧ (handleRefreshSuccess refreshDemoState refreshDemoData).selection
        = refreshDemoState.selection := by
  have h := refresh_preserves_selection refreshDemoState refreshDemoData
  exact ⟨(h.2.1 (by decide)).1, h.1⟩

/-- C4: on a successful completeness check the confirm handler navigates with
a payload mapping each stored position to the candidate found by id lookup in
that position's candidate list (entries whose id does not resolve are silently
dropped, producing `none`), and the abstention map is passed along
unchanged. -/
theorem confirm_payload_resolves_ids (positions : List String)
    (ballot : List (String × List Candidate)) (st : SelectionState)
    (hnd : (keysOf st.selectedCandidateIds).Nodup)
    (hc : ∀ p ∈ positions,
      positionComplete st.selectedCandidateIds st.noneSelected p = true) :
    handleConfirmVote positions ballot st =
      ConfirmOutcome.navigate
        (validSelectedCandidates ballot st.selectedCandidateIds) st.noneSelected
    ∧ ∀ p, lookupKey (validSelectedCandidates ballot st.selectedCandidateIds) p =
        match lookupKey st.selectedCandidateIds p with
        | some cid =>
            ((lookupKey ballot p).getD []).find? (fun c => c.id == some cid)
        | none => none := by
  constructor
  · rw [handleConfirmVote, if_pos (List.all_eq_true.mpr hc)]
  · intro p
    exact lookupKey_validSelectedCandidates ballot st.selectedCandidateIds p hnd

/-- Witness for C4 at a concrete complete ballot: the stored id "c1" resolves
to `candA` and the abstention map is carried over unchanged. -/
theorem confirm_payload_resolves_ids_witness :
    handleConfirmVote ["President"] [("President", [candA])]
        ⟨[("President", "c1")], []⟩ =
      ConfirmOutcome.navigate [("President", candA)] [] := by
  have h := confirm_payload_resolves_ids ["President"] [("President", [candA])]
    ⟨[("President", "c1")], []⟩ (by decide) (by decide)
  rw [h.1]
  decide

/-- C10: voting for a candidate whose `id` and `_id` are both absent records
the empty string for that position; the position then passes the completeness
check, yet — when no candidate of that position carries the id `""` — the id
lookup fails, so the position reaches the confirmation payload with neither a
selected candidate nor an abstention flag. -/
theorem empty_id_selection_dropped (st : SelectionState) (c : Candidate)
    (p : String) (ballot : List (String × List Candidate))
    (hnd : (keysOf st.selectedCandidateIds).Nodup)
    (hid : c.id = none) (hid2 : c._id = none)
    (hno : ∀ c' ∈ (lookupKey ballot p).getD [], ¬ c'.id = some "") :
    lookupKey (handleVote st c p).selectedCandidateIds p = some ""
    ∧ positionComplete (handleVote st c p).selectedCandidateIds
        (handleVote st c p).noneSelected p = true
    ∧ lookupKey
        (validSelectedCandidates ballot (handleVote st c p).selectedCandidateIds) p
        = none
    ∧ noneFlag (handleVote st c p).noneSelected p = false := by
  have hcid : candidateIdOf c = "" := by
    rw [candidateIdOf, hid, hid2]
    rfl
  have h1 : lookupKey (setKey st.selectedCandidateIds p (candidateIdOf c)) p
      = some "" := by
    rw [hcid]
    exact lookupKey_setKey_self _ _ _
  have hnd' : (keysOf (setKey st.selectedCandidateIds p (candidateIdOf c))).Nodup :=
    nodup_keys_setKey _ _ _ hnd
  refine ⟨h1, ?_, ?_, ?_⟩
  · simp [positionComplete, handleVote, h1]
  · rw [show (handleVote st c p).selectedCandidateIds
        = setKey st.selectedCandidateIds p (candidateIdOf c) from rfl]
    rw [lookupKey_validSelectedCandidates ballot _ p hnd', h1]
    exact List.find?_eq_none.mpr (fun x hx => by simp [hno x hx])
  · simp [handleVote, noneFlag, lookupKey_setKey_self]

/-- Witness for C10 at a concrete input: voting the id-less `candNoId` for
"President" stores `""`, which does not resolve against the ballot holding
only `candA`, so the payload has no entry for "President". -/
theorem empty_id_selection_dropped_witness :
    lookupKey (handleVote SelectionState.empty candNoId "President").selectedCandidateIds
        "President" = some ""
    ∧ lookupKey (validSelectedCandidates [("President", [candA])]
        (handleVote SelectionState.empty candNoId "President").selectedCandidateIds)
        "President" = none := by
  have h := empty_id_selection_dropped SelectionState.empty candNoId "President"
    [("President", [candA])] (by decide) (by decide) (by decide) (by decide)
  exact ⟨h.1, h.2.2.1⟩

theorem mem_insertDescByTime (x a : ActivityLog) (l : List ActivityLog) :
    a ∈ insertDescByTime x l ↔ a = x ∨ a ∈ l := by
  induction l with
  | nil => simp [insertDescByTime]
  | cons y ys ih =>
      simp only [insertDescByTime]
      split
      · simp
      · simp [ih]
        tauto

theorem mem_sortByTimeDesc (a : ActivityLog) (l : List ActivityLog) :
    a ∈ sortByTimeDesc l ↔ a ∈ l := by
  induction l with
  | nil => simp [sortByTimeDesc]
  | cons y ys ih =>
      simp only [sortByTimeDesc, List.foldr] at *
      rw [mem_insertDescByTime]
      simp [ih]

theorem mem_filterIfTrue {p : ActivityLog → Bool} {b : Bool} {l : List ActivityLog}
    {x : ActivityLog} :
    x ∈ (if b then l.filter p else l) ↔ x ∈ l ∧ (b = true → p x = true) := by
  cases b
  · simp
  · simp [List.mem_filter]

theorem mem_filterDate {f : Nat → ActivityLog → Bool} {o : Option Nat}
    {l : List ActivityLog} {x : ActivityLog} :
    x ∈ (match o with
         | some d => l.filter (f d)
         | none => l) ↔ x ∈ l ∧ ∀ d, o = some d → f d x = true := by
  cases o with
  | none => simp
  | some d => simp [List.mem_filter]

theorem mem_searchStage (s : String) (l : List ActivityLog) (x : ActivityLog) :
    x ∈ searchStage s l ↔ x ∈ l
      ∧ ((s != "") = true → matchesSearch (lowerStr s) x = true) := by
  unfold searchStage
  exact mem_filterIfTrue

theorem mem_structuredStage (f : LogFilters) (l : List ActivityLog) (x : ActivityLog) :
    x ∈ structuredStage f l ↔ x ∈ l
      ∧ ((f.user != "") = true → matchesUserFilter f.user x = true)
      ∧ ((f.action != "") = true → (x.action == f.action) = true)
      ∧ ((f.entity != "") = true → (x.entity == f.entity) = true)
      ∧ (∀ d, f.fromDate = some d → d ≤ x.timestamp)
      ∧ (∀ d, f.toDate = some d → x.timestamp ≤ endOfDayMs d) := by
  unfold structuredStage
  rw [mem_filterDate, mem_filterDate, mem_filterIfTrue, mem_filterIfTrue,
    mem_filterIfTrue]
  simp only [decide_eq_true_eq]
  tauto

theorem mem_logPipeline (s : String) (f : LogFilters) (l : List ActivityLog)
    (x : ActivityLog) :
    x ∈ logPipeline s f l ↔ x ∈ l
      ∧ ((s != "") = true → matchesSearch (lowerStr s) x = true)
      ∧ ((f.user != "") = true → matchesUserFilter f.user x = true)
      ∧ ((f.action != "") = true → (x.action == f.action) = true)
      ∧ ((f.entity != "") = true → (x.entity == f.entity) = true)
      ∧ (∀ d, f.fromDate = some d → d ≤ x.timestamp)
      ∧ (∀ d, f.toDate = some d → x.timestamp ≤ endOfDayMs d) := by
  unfold logPipeline
  rw [mem_sortByTimeDesc, mem_structuredStage, mem_searchStage]
  tauto

theorem logPipeline_nil (s : String) (f : LogFilters) : logPipeline s f [] = [] := by
  refine List.eq_nil_iff_forall_not_mem.mpr (fun x hx => ?_)
  rw [mem_logPipeline] at hx
  exact absurd hx.1 (List.not_mem_nil x)

/-- C5: the displayed filtered log list always equals the fixed pipeline
(case-insensitive free-text search over username/fullName/action/entity/
details, then exact-match user/action/entity filters and the day date range,
then sort by timestamp descending) applied to the full unfiltered list, and
relaxing the search term or any structured filter can only grow the result
set. The hypothesis records the reachable-state fact that an empty `logs`
list comes with an empty previous `filteredLogs` (both are set from the same
fetch response). -/
theorem log_filter_pipeline (prev logs : List ActivityLog) (s : String)
    (f : LogFilters) (hprev : logs = [] → prev = []) :
    updateFilteredLogs prev logs s f = logPipeline s f logs
    ∧ ∀ (t : String) (g : LogFilters),
        (t = "" ∨ t = s) → (g.user = "" ∨ g.user = f.user)
        → (g.action = "" ∨ g.action = f.action)
        → (g.entity = "" ∨ g.entity = f.entity)
        → (g.fromDate = none ∨ g.fromDate = f.fromDate)
        → (g.toDate = none ∨ g.toDate = f.toDate)
        → ∀ x ∈ logPipeline s f logs, x ∈ logPipeline t g logs := by
  constructor
  · by_cases h : logs = []
    · subst h
      rw [hprev rfl, logPipeline_nil]
      rfl
    · have hne : logs.isEmpty = false := by
        cases logs with
        | nil => exact absurd rfl h
        | cons y ys => rfl
      simp only [updateFilteredLogs, hne]
      rfl
  · intro t g ht hu ha he hfrom hto x hx
    rw [mem_logPipeline] at hx
    rw [mem_logPipeline]
    obtain ⟨hxl, hs, hu', ha', he', hf', ht'⟩ := hx
    refine ⟨hxl, ?_, ?_, ?_, ?_, ?_, ?_⟩
    · intro hne
      rcases ht with h | h
      · rw [h] at hne
        exact absurd hne (by decide)
      · subst h
        exact hs hne
    · intro hne
      rcases hu with h | h
      · rw [h] at hne
        exact absurd hne (by decide)
      · rw [h] at hne ⊢
        exact hu' hne
    · intro hne
      rcases ha with h | h
      · rw [h] at hne
        exact absurd hne (by decide)
      · rw [h] at hne ⊢
        exact ha' hne
    · intro hne
      rcases he with h | h
      · rw [h] at hne
        exact absurd hne (by decide)
      · rw [h] at hne ⊢
        exact he' hne
    · intro d hd
      rcases hfrom with h | h
      · rw [h] at hd
        cases hd
      · rw [h] at hd
        exact hf' d hd
    · intro d hd
      rcases hto with h | h
      · rw [h] at hd
        cases hd
      · rw [h] at hd
        exact ht' d hd

/-- Witness for C5 at a concrete pair of logs: searching for "ali" keeps only
the entry for user "alice". -/
theorem log_filter_pipeline_witness :
    updateFilteredLogs [] [demoLog1, demoLog2] "ali" demoFilters
        = logPipeline "ali" demoFilters [demoLog1, demoLog2]
    ∧ logPipeline "ali" demoFilters [demoLog1, demoLog2] = [demoLog1] := by
  have h := log_filter_pipeline [] [demoLog1, demoLog2] "ali" demoFilters
    (fun _ => rfl)
  exact ⟨h.1, by decide⟩

/-- C6: with only date filters active, the structured filter stage keeps
exactly the entries whose timestamp is at least the start of the `fromDate`
day and at most 23:59:59 (= 86399000 ms past midnight) of the `toDate`
day — an inclusive upper bound at the last second of that day. -/
theorem log_date_range_inclusive (fromD toD : Option Nat) (l : List ActivityLog)
    (x : ActivityLog) :
    x ∈ structuredStage ⟨"", "", "", fromD, toD⟩ l
      ↔ x ∈ l ∧ (∀ d, fromD = some d → d ≤ x.timestamp)
          ∧ (∀ d, toD = some d → x.timestamp ≤ d + 86399000) := by
  rw [mem_structuredStage]
  simp [endOfDayMs]

theorem countNewlines_append (a b : String) :
    countNewlines (a ++ b) = countNewlines a + countNewlines b := by
  simp [countNewlines, String.data_append, List.count_append]

theorem countNewlines_eq_zero (s : String) (h : hasNewline s = false) :
    countNewlines s = 0 := by
  rw [countNewlines, List.count_eq_zero]
  intro hm
  rw [hasNewline] at h
  have := List.elem_eq_true_of_mem hm
  rw [List.contains] at h
  rw [h] at this
  cases this

theorem count_newline_escapeQuotes (s : String) :
    countNewlines (escapeQuotes s) = countNewlines s := by
  rw [countNewlines, countNewlines, escapeQuotes]
  show (s.data.foldr
      (fun c acc => if c = '"' then '"' :: '"' :: acc else c :: acc) []).count '\n'
    = s.data.count '\n'
  induction s.data with
  | nil => rfl
  | cons c cs ih =>
      by_cases h : c = '"'
      · subst h
        have hq : ('"' == '\n') = false := by decide
        simp [List.count_cons, ih, hq]
      · simp [h, List.count_cons, ih]

theorem count_quotes_escapeQuotes (s : String) :
    countQuotes (escapeQuotes s) = 2 * countQuotes s := by
  rw [countQuotes, countQuotes, escapeQuotes]
  show (s.data.foldr
      (fun c acc => if c = '"' then '"' :: '"' :: acc else c :: acc) []).count '"'
    = 2 * s.data.count '"'
  induction s.data with
  | nil => rfl
  | cons c cs ih =>
      by_cases h : c = '"'
      · subst h
        simp [List.count_cons, ih]
        omega
      · have hq : (c == '"') = false := by
          simp [h]
        simp [h, List.count_cons, ih, hq]

theorem strAppend_assoc (a b c : String) : a ++ b ++ c = a ++ (b ++ c) := by
  apply String.ext
  simp [String.data_append, List.append_assoc]

theorem handleExport_eq (fmt : Nat → String) (logs : List ActivityLog) :
    handleExport fmt logs = csvHeader ++ csvBody fmt logs := by
  rw [handleExport]
  have h : ∀ (l : List ActivityLog) (acc : String),
      l.foldl (fun a log => a ++ csvRow fmt log) acc = acc ++ csvBody fmt l := by
    intro l
    induction l with
    | nil =>
        intro acc
        show acc = acc ++ ""
        apply String.ext
        simp [String.data_append]
    | cons lg rest ih =>
        intro acc
        rw [List.foldl_cons, ih, csvBody, strAppend_assoc]
  exact h logs csvHeader

theorem countNewlines_csvRow (fmt : Nat → String) (log : ActivityLog)
    (h1 : hasNewline (fmt log.timestamp) = false)
    (h2 : hasNewline (displayUser log) = false)
    (h3 : hasNewline (displayRole log) = false)
    (h4 : hasNewline log.action = false)
    (h5 : hasNewline log.entity = false)
    (h6 : hasNewline log.details = false)
    (h7 : hasNewline log.ipAddress = false) :
    countNewlines (csvRow fmt log) = 1 := by
  rw [csvRow]
  repeat rw [countNewlines_append]
  rw [countNewlines_eq_zero _ h1, countNewlines_eq_zero _ h2,
    countNewlines_eq_zero _ h3, countNewlines_eq_zero _ h4,
    countNewlines_eq_zero _ h5, countNewlines_eq_zero _ h7,
    count_newline_escapeQuotes, countNewlines_eq_zero _ h6]
  decide

theorem countNewlines_csvBody (fmt : Nat → String) (logs : List ActivityLog)
    (h : ∀ log ∈ logs, countNewlines (csvRow fmt log) = 1) :
    countNewlines (csvBody fmt logs) = logs.length := by
  induction logs with
  | nil => rfl
  | cons lg rest ih =>
      rw [csvBody, countNewlines_append, h lg (List.mem_cons_self lg rest),
        ih (fun l hl => h l (List.mem_cons_of_mem lg hl))]
      simp [Nat.add_comm]

/-- C7: CSV export is a pure projection of the filtered in-memory list — the
produced string is exactly the header followed by one quote-wrapped row per
filtered entry, so N entries yield N+1 newline-terminated lines (2 entries
yield a 3-line file), and every double quote embedded in `details` is escaped
by doubling. The hypothesis requires the rendered fields to be free of raw
newline characters, which the counting claim presupposes. -/
theorem csv_export_shape (fmt : Nat → String) (logs : List ActivityLog)
    (hf : ∀ log ∈ logs,
      hasNewline (fmt log.timestamp) = false
      ∧ hasNewline (displayUser log) = false
      ∧ hasNewline (displayRole log) = false
      ∧ hasNewline log.action = false
      ∧ hasNewline log.entity = false
      ∧ hasNewline log.details = false
      ∧ hasNewline log.ipAddress = false) :
    countNewlines (handleExport fmt logs) = logs.length + 1
    ∧ handleExport fmt logs = csvHeader ++ csvBody fmt logs
    ∧ (∀ s, countQuotes (escapeQuotes s) = 2 * countQuotes s) := by
  refine ⟨?_, handleExport_eq fmt logs, fun s => count_quotes_escapeQuotes s⟩
  rw [handleExport_eq, countNewlines_append, countNewlines_csvBody fmt logs ?rows]
  case rows =>
    intro log hl
    obtain ⟨a, b, c, d, e, f, g⟩ := hf log hl
    exact countNewlines_csvRow fmt log a b c d e f g
  have hh : countNewlines csvHeader = 1 := by decide
  rw [hh]
  omega

/-- Witness for C7 at two concrete filtered entries (both with embedded
quotes in `details`): the export is a 3-line file. -/
theorem csv_export_shape_witness :
    countNewlines (handleExport demoFmt [demoLog2, demoLog1]) = 3 := by
  have h := csv_export_shape demoFmt [demoLog2, demoLog1] (by decide)
  exact h.1

/-- C8: without the logs delete permission, clearing logs is a no-op — the
handler returns the state unchanged without calling the delete endpoint or
scheduling anything, and the Clear All Logs button is not rendered. -/
theorem clear_logs_requires_permission (confirmed requestOk : Bool) (status : Nat)
    (st : LogMgrState) :
    handleClearLogs false confirmed requestOk status st
        = ⟨st, false, none⟩
    ∧ clearButtonRendered false = false :=
  ⟨rfl, rfl⟩

/-- C9: when the user declines the confirmation the state is untouched and no
request is made; when the delete request fails, `logs` and `filteredLogs` are
left unchanged, an error notification is shown with a scheduled 3000 ms
clear whose firing removes it; the two lists are emptied only on success. -/
theorem clear_logs_failure_preserves (st : LogMgrState) (requestOk : Bool)
    (status : Nat) :
    handleClearLogs true false requestOk status st = ⟨st, false, none⟩
    ∧ (handleClearLogs true true false status st).state.logs = st.logs
    ∧ (handleClearLogs true true false status st).state.filteredLogs
        = st.filteredLogs
    ∧ (handleClearLogs true true false status st).state.notification
        = some (NotifType.error, "Failed to clear logs: " ++ toString status)
    ∧ (handleClearLogs true true false status st).scheduledClearMs = some 3000
    ∧ (clearNotification (handleClearLogs true true false status st).state).notification
        = none
    ∧ (handleClearLogs true true true status st).state.logs = []
    ∧ (handleClearLogs true true true status st).state.filteredLogs = [] :=
  ⟨rfl, rfl, rfl, rfl, rfl, rfl, rfl, rfl⟩

end EVoting
